import Mathlib

/-
Verification development for the order-coordination server (src/server.js).

The server keeps all state in two in-memory JS `Map`s (`orders`, `masters`)
and exposes HTTP endpoints plus Telegram handlers.  We embed the state as
association lists (a JS `Map` preserves key-insertion order; `set` on an
existing key updates in place, on a fresh key appends), the handlers as pure
state-transformers, and external effects (Telegram transport, Google Sheets,
timers) as explicit outputs of those transformers.  Time is an integer
millisecond clock passed in as `now`; JS `Date` parsing of the order's
`orderDate`/`orderTime` strings is abstracted as a parameter `pdt`.
-/

namespace Prace

/-- A JS identity value as used for `Map` keys and `masterId` fields: the code
mixes `String` keys (registration stores `userId.toString()`) and `Number`
values (`callbackQuery.from.id`).  JS `Map` lookup and `===` use SameValueZero,
under which a string is never equal to a number, which this sum type mirrors. -/
inductive JSId
  | str (s : String)
  | num (n : Int)
deriving DecidableEq, Repr

/-- Order lifecycle status strings used by server.js. -/
inductive Status
  | pending
  | taken
  | completed
deriving DecidableEq, Repr

/-- JS `Map.get` / object-property read on an association list: the value of
the first (unique, for a real `Map`) entry with the given key. -/
def jsMapGet {α β : Type} [DecidableEq α] : List (α × β) → α → Option β
  | [], _ => none
  | (k', v) :: rest, k => if k' = k then some v else jsMapGet rest k

/-- JS `Map.set` / object-property write on an association list: update the
first entry with the key in place, or append a fresh entry at the end.  This
matches JS insertion-order semantics for both `Map` and plain objects. -/
def jsMapSet {α β : Type} [DecidableEq α] : List (α × β) → α → β → List (α × β)
  | [], k, v => [(k, v)]
  | (k', v') :: rest, k, v =>
    if k' = k then (k, v) :: rest else (k', v') :: jsMapSet rest k v

theorem jsMapGet_jsMapSet_self {α β : Type} [DecidableEq α]
    (m : List (α × β)) (k : α) (v : β) :
    jsMapGet (jsMapSet m k v) k = some v := by
  induction m with
  | nil => simp [jsMapGet, jsMapSet]
  | cons hd tl ih =>
    obtain ⟨k', v'⟩ := hd
    by_cases h : k' = k
    · simp [jsMapGet, jsMapSet, h]
    · simp [jsMapGet, jsMapSet, h, ih]

theorem jsMapGet_jsMapSet_ne {α β : Type} [DecidableEq α]
    (m : List (α × β)) (k k' : α) (v : β) (hne : k ≠ k') :
    jsMapGet (jsMapSet m k v) k' = jsMapGet m k' := by
  induction m with
  | nil => simp [jsMapGet, jsMapSet, hne]
  | cons hd tl ih =>
    obtain ⟨k0, v0⟩ := hd
    by_cases h : k0 = k
    · subst h
      simp [jsMapGet, jsMapSet, hne]
    · simp only [jsMapSet, if_neg h]
      by_cases h' : k0 = k'
      · simp [jsMapGet, h']
      · simp [jsMapGet, h', ih]

/-- An entry of an association list with pairwise-distinct keys is what
`jsMapGet` returns at its key. -/
theorem jsMapGet_of_mem_nodup {α β : Type} [DecidableEq α]
    (m : List (α × β)) (k : α) (v : β)
    (hmem : (k, v) ∈ m) (hnd : (m.map Prod.fst).Nodup) :
    jsMapGet m k = some v := by
  induction m with
  | nil => cases hmem
  | cons hd tl ih =>
    obtain ⟨k0, v0⟩ := hd
    simp only [List.map_cons, List.nodup_cons] at hnd
    rcases List.mem_cons.mp hmem with heq | htl
    · cases heq
      simp [jsMapGet]
    · have hk0 : k0 ≠ k := by
        intro hk
        exact hnd.1 (by simpa [hk] using List.mem_map_of_mem Prod.fst htl)
      simp [jsMapGet, hk0, ih htl hnd.2]

/-- Does the second character list occur at the head of the first
(`startsWith` on char lists)? -/
def startsWithL : List Char → List Char → Bool
  | _, [] => true
  | [], _ :: _ => false
  | a :: as, b :: bs => a = b && startsWithL as bs

/-- Does `sub` occur as a contiguous run somewhere inside `l`?  This is JS
`String.prototype.includes` on the underlying character lists. -/
def containsL : List Char → List Char → Bool
  | [], sub => sub.isEmpty
  | a :: as, sub => startsWithL (a :: as) sub || containsL as sub

/-- JS `String.prototype.includes(sub)`. -/
def jsIncludes (s sub : String) : Bool :=
  containsL s.toList sub.toList

/-- JS `String.prototype.toLowerCase()` on one character, restricted to the
alphabets the code can meet in its configured city names and markers: ASCII
letters and the Cyrillic block (А-Я plus Ё) that full Unicode lowercasing maps
onto а-я/ё.  Other characters are left unchanged. -/
def jsToLowerChar (c : Char) : Char :=
  if 'A' ≤ c ∧ c ≤ 'Z' then Char.ofNat (c.toNat + 32)
  else if 'А' ≤ c ∧ c ≤ 'Я' then Char.ofNat (c.toNat + 32)
  else if c = 'Ё' then 'ё'
  else c

/-- JS `String.prototype.toLowerCase()`. -/
def jsToLower (s : String) : String :=
  String.mk (s.toList.map jsToLowerChar)

/-- The configured `CITY_CHANNELS` object of server.js, as an association list
in key-insertion order. -/
def CITY_CHANNELS : List (String × String) :=
  [("Москва", "@apexclean_moscow"),
   ("Санкт-Петербург", "@apexclean_spb"),
   ("Казань", "@apexclean_kazan")]

/-- The `for (const city of cities)` loop body of `extractCityFromAddress`:
return the first city whose lowercased name is contained in the lowercased
address, else the default "Москва". -/
def findCity (address : String) : List String → String
  | [] => "Москва"
  | city :: rest =>
    if jsIncludes (jsToLower address) (jsToLower city) then city
    else findCity address rest

/-- `extractCityFromAddress` from server.js: iterate over the keys of
`CITY_CHANNELS` and return the first case-insensitive substring match,
defaulting to "Москва". -/
def extractCityFromAddress (address : String) : String :=
  findCity address (CITY_CHANNELS.map Prod.fst)

/-- The DispatchRouter contract as the spec words it: the first configured
region whose name matches case-insensitively as a substring, with the
configured default region when none matches. -/
def dispatchRouterSpec (address : String) : String :=
  ((CITY_CHANNELS.map Prod.fst).find?
    (fun city => jsIncludes (jsToLower address) (jsToLower city))).getD "Москва"

theorem findCity_eq_find? (address : String) (l : List String) :
    findCity address l =
      (l.find? (fun city => jsIncludes (jsToLower address) (jsToLower city))).getD
        "Москва" := by
  induction l with
  | nil => rfl
  | cons city rest ih =>
    by_cases h : jsIncludes (jsToLower address) (jsToLower city) = true
    · simp [findCity, List.find?, h]
    · simp only [Bool.not_eq_true] at h
      simp [findCity, List.find?, h, ih]

/-- The in-memory order record of server.js, restricted to the fields the
handlers read or write.  `photos` is the JS object `order.photos` as an
association list in key-insertion order; timestamps are integer milliseconds
(`Option` for "property absent").  Transport-only fields
(`telegramMessageId`/`telegramChatId`) are not modelled: the handlers only
pass them to the Telegram API. -/
structure Order where
  id : String
  status : Status
  masterId : Option JSId := none
  masterName : Option String := none
  createdAt : Option Int := none
  takenAt : Option Int := none
  completedAt : Option Int := none
  photos : List (String × String) := []
  customerAddress : String := ""
  customerPhone : String := ""
  orderDate : String := ""
  orderTime : String := ""
deriving DecidableEq, Repr

/-- The two module-level `Map`s of server.js: `orders` (orderId to order) and
`masters` (registration key to chat id). -/
structure ServerState where
  orders : List (String × Order) := []
  masters : List (JSId × Int) := []
deriving DecidableEq, Repr

/-- Which of the two reminders of `scheduleNotifications` a timer is. -/
inductive ReminderKind
  | h24
  | h2
deriving DecidableEq, Repr

/-- One armed `setTimeout`: the chat it will message and the delay argument
(in ms, possibly negative) the code passes to `setTimeout`. -/
structure Timer where
  chatId : Int
  requestedDelay : Int
  kind : ReminderKind
deriving DecidableEq, Repr

/-- Node's `setTimeout` delay clamping: a delay below 1 ms or above 2^31 − 1 ms
is replaced by 1 ms, so a fire time already in the past fires (essentially)
immediately instead of being dropped. -/
def effectiveDelay (d : Int) : Int :=
  if d < 1 ∨ 2147483647 < d then 1 else d

/-- `scheduleNotifications(orderId, date, time)` from server.js: parse the
order's schedule (`pdt` abstracts `new Date(date + 'T' + time).getTime()`),
look the order's `masterId` up in `masters`, and if a chat id is found arm two
timers with delays `(schedule − 24h) − now` and `(schedule − 2h) − now`; if the
lookup misses (`masterChatId` falsy) arm nothing. -/
def scheduleNotifications (pdt : String → String → Int) (now : Int)
    (st : ServerState) (orderId : String) : List Timer :=
  match jsMapGet st.orders orderId with
  | none => []
  | some order =>
    let orderDateTime := pdt order.orderDate order.orderTime
    match order.masterId.bind (fun mid => jsMapGet st.masters mid) with
    | none => []
    | some chatId =>
      [⟨chatId, (orderDateTime - 24 * 60 * 60 * 1000) - now, ReminderKind.h24⟩,
       ⟨chatId, (orderDateTime - 2 * 60 * 60 * 1000) - now, ReminderKind.h2⟩]

/-- The `/start` registration handler: `masters.set(userId.toString(), chatId)`.
Note the key is the *string* form of the numeric Telegram user id. -/
def registerStart (st : ServerState) (userId : Int) (chatId : Int) : ServerState :=
  { st with masters := jsMapSet st.masters (JSId.str (toString userId)) chatId }

/-- Immutable creation-time fields of an order request body. -/
structure OrderData where
  manager : String := ""
  customerName : String := ""
  customerPhone : String := ""
  customerAddress : String := ""
  customerFlat : String := ""
  area : String := ""
  cleaningType : String := ""
  difficulty : String := ""
  orderDate : String := ""
  orderTime : String := ""
  orderTotal : String := ""
  masterPay : String := ""
  pets : String := ""
  equipment : String := ""
  chemistry : String := ""
  worksDescription : String := ""
deriving DecidableEq, Repr

/-- The state mutation of `/api/create-order`: store a fresh record with
`status: 'pending'` and `createdAt` under the generated id. -/
def createOrder (st : ServerState) (orderId : String) (d : OrderData)
    (now : Int) : ServerState :=
  let fresh : Order :=
    { id := orderId
      status := Status.pending
      createdAt := some now
      customerAddress := d.customerAddress
      customerPhone := d.customerPhone
      orderDate := d.orderDate
      orderTime := d.orderTime }
  { st with orders := jsMapSet st.orders orderId fresh }

/-- Outcome of the HTTP response of an endpoint. -/
inductive ApiResult
  | ok
  | notFound
  | serverError
deriving DecidableEq, Repr

/-- Result of a `/api/take-order` call: the response, the state after the
handler ran, and the timers armed by `scheduleNotifications`. -/
structure TakeOutcome where
  result : ApiResult
  state : ServerState
  timers : List Timer
deriving Repr

/-- `/api/take-order` from server.js.  If the order id is unknown the handler
responds 404 and changes nothing.  Otherwise it *unconditionally* (there is no
status check) sets `status='taken'`, `masterId`, `masterName`, `takenAt`, then
deletes the broadcast message, writes the ledger and arms reminders.  The
ledger write (`updateGoogleSheet`) is awaited inside the `try`: `ledgerFails`
models it throwing, in which case the `catch` responds 500 — but the in-memory
mutation has already happened and is not rolled back, and the statements after
the throw (scheduleNotifications, res.json) do not run. -/
def takeOrderApi (pdt : String → String → Int) (ledgerFails : Bool) (now : Int)
    (st : ServerState) (orderId : String) (masterId : JSId)
    (masterName : String) : TakeOutcome :=
  match jsMapGet st.orders orderId with
  | none => ⟨ApiResult.notFound, st, []⟩
  | some order =>
    let order' := { order with
      status := Status.taken
      masterId := some masterId
      masterName := some masterName
      takenAt := some now }
    let st' := { st with orders := jsMapSet st.orders orderId order' }
    if ledgerFails then ⟨ApiResult.serverError, st', []⟩
    else ⟨ApiResult.ok, st', scheduleNotifications pdt now st' orderId⟩

/-- What `answerCallbackQuery` tells the tapping worker. -/
inductive CallbackResult
  | accepted
  | alreadyTaken
deriving DecidableEq, Repr

/-- The `take_` branch of the `callback_query` handler.  Only when the order
exists and its status is `'pending'` does the claim commit: the check and the
mutation run synchronously (no `await` between them), so the transition is
atomic on the event loop.  The committed record stores the *numeric*
`callbackQuery.from.id` as `masterId`.  Any other case (missing order or
status already past `pending`) answers "already taken" and changes nothing. -/
def callbackTake (pdt : String → String → Int) (now : Int) (st : ServerState)
    (orderId : String) (fromId : Int) (fromName : String) :
    CallbackResult × ServerState × List Timer :=
  match jsMapGet st.orders orderId with
  | some order =>
    if order.status = Status.pending then
      let order' := { order with
        status := Status.taken
        masterId := some (JSId.num fromId)
        masterName := some fromName
        takenAt := some now }
      let st' := { st with orders := jsMapSet st.orders orderId order' }
      (CallbackResult.accepted, st', scheduleNotifications pdt now st' orderId)
    else (CallbackResult.alreadyTaken, st, [])
  | none => (CallbackResult.alreadyTaken, st, [])

/-- Run a sequence of `take_` callback taps on the same order, one handler at
a time (the event-loop interleaving of the check-and-set, which is atomic per
handler), collecting each worker's answer. -/
def runCallbackClaims (pdt : String → String → Int) (now : Int)
    (st : ServerState) (orderId : String) :
    List (Int × String) → List CallbackResult × ServerState
  | [] => ([], st)
  | (i, n) :: rest =>
    let r := callbackTake pdt now st orderId i n
    let rs := runCallbackClaims pdt now r.2.1 orderId rest
    (r.1 :: rs.1, rs.2)

/-- Result of a `/api/upload-photo` call: the response, the state after the
handler, the `updates` object (in key-insertion order) the handler passed to
`updateGoogleSheet`, and whether the manager-channel message was sent
(the `type === 'after'` branch). -/
structure UploadOutcome where
  result : ApiResult
  state : ServerState
  ledgerUpdates : List (String × String)
  managerNotified : Bool
deriving DecidableEq, Repr

/-- `/api/upload-photo` from server.js.  An unknown order id responds 404.
For *any* existing order — the handler performs no status check at all — it
upserts `order.photos[type] = photoUrl`, sends the ledger the updates object
`{photo_<type>: photoUrl, <type>_at: now}`, and if `type === 'after'` notifies
the manager channel.  It never touches `status` or any timestamp field. -/
def uploadPhotoApi (now : Int) (st : ServerState) (orderId ty photoUrl : String) :
    UploadOutcome :=
  match jsMapGet st.orders orderId with
  | none => ⟨ApiResult.notFound, st, [], false⟩
  | some order =>
    let order' := { order with photos := jsMapSet order.photos ty photoUrl }
    let st' := { st with orders := jsMapSet st.orders orderId order' }
    ⟨ApiResult.ok, st',
      [("photo_" ++ ty, photoUrl), (ty ++ "_at", toString now)],
      ty == "after"⟩

/-- The caption-classification `if/else if` chain of the `bot.on('photo')`
handler: `'на месте' → on_site`, else `'химия' → chemistry`, else
`'до' → before`, else `'после' → after`, else the empty string. -/
def classifyPhotoType (caption : String) : String :=
  if jsIncludes caption "на месте" then "on_site"
  else if jsIncludes caption "химия" then "chemistry"
  else if jsIncludes caption "до" then "before"
  else if jsIncludes caption "после" then "after"
  else ""

/-- The fixed ordered marker list of the spec's PhotoWorkflow: first-match
containment in the priority order `on_site, chemistry, before, after`. -/
def stageMarkers : List (String × String) :=
  [("на месте", "on_site"), ("химия", "chemistry"),
   ("до", "before"), ("после", "after")]

/-- Stage classification as the spec words it: the stage of the first marker
contained in the caption, `none` when no marker matches. -/
def classifySpec (caption : String) : Option String :=
  (stageMarkers.find? (fun m => jsIncludes caption m.1)).map Prod.snd

/-- Messages the photo handler sends back to the submitting chat. -/
inductive BotReply
  | photoSaved
  | orderCompleted
deriving DecidableEq, Repr

/-- Result of one `bot.on('photo')` event: the state afterwards, the sequence
of `updates` objects passed to `updateGoogleSheet`, and the replies sent. -/
structure PhotoOutcome where
  state : ServerState
  ledgerUpdates : List (List (String × String))
  replies : List BotReply
deriving DecidableEq, Repr

/-- `bot.on('photo')` from server.js.  Classify the caption; an unrecognized
caption falls through both `if`s and the event ends with no state change and
no reply.  Otherwise find the first order (in map insertion order) with
`masterId === msg.from.id` (a *numeric* id) and `status === 'taken'`; if none,
nothing happens.  If found, upsert `photos[type]`, send the ledger the photo
update, reply "saved", and only when `type === 'after'` additionally set
`status = 'completed'` (note: `completedAt` is never written), send the ledger
`{status: 'completed'}` and reply "completed".  `photoUrl` abstracts the file
URL built from `bot.getFile`. -/
def photoHandler (now : Int) (st : ServerState) (fromId : Int)
    (caption photoUrl : String) : PhotoOutcome :=
  let ty := classifyPhotoType caption
  if ty = "" then ⟨st, [], []⟩
  else
    match st.orders.find? (fun p =>
        decide (p.2.masterId = some (JSId.num fromId) ∧
                p.2.status = Status.taken)) with
    | none => ⟨st, [], []⟩
    | some (k, order) =>
      let order1 := { order with photos := jsMapSet order.photos ty photoUrl }
      let st1 := { st with orders := jsMapSet st.orders k order1 }
      let upd1 := [("photo_" ++ ty, photoUrl), (ty ++ "_at", toString now)]
      if ty = "after" then
        let order2 := { order1 with status := Status.completed }
        let st2 := { st1 with orders := jsMapSet st1.orders k order2 }
        ⟨st2, [upd1, [("status", "completed")]],
          [BotReply.photoSaved, BotReply.orderCompleted]⟩
      else ⟨st1, [upd1], [BotReply.photoSaved]⟩

/-- Overwrite a run of cells of `row` starting at 0-based column `start` with
`vals`, leaving everything else unchanged: the effect of a Sheets
`values.update` on a row range. -/
def writeCells : List String → Nat → List String → List String
  | row, _, [] => row
  | [], _, _ :: _ => []
  | _ :: rest, 0, v :: vs => v :: writeCells rest 0 vs
  | c :: rest, n + 1, vals => c :: writeCells rest n vals

/-- `updateGoogleSheet(orderId, updates)` from server.js, acting on the sheet
as a list of rows: find the first row whose cell B (index 1) equals `orderId`
(`rows.findIndex(row => row[1] === orderId)`), and overwrite its range `K:T`
(0-based columns 10..) with `Object.values(updates)` — the values in
key-insertion order, the key names discarded.  No matching row: no-op. -/
def updateGoogleSheet : List (List String) → String → List (String × String) →
    List (List String)
  | [], _, _ => []
  | row :: rest, orderId, updates =>
    if row.get? 1 = some orderId then
      writeCells row 10 (updates.map Prod.snd) :: rest
    else row :: updateGoogleSheet rest orderId updates

/-- The row `saveToGoogleSheets` appends on order creation: 23 cells, with the
status string at 0-based index 10 — column K (the same column `/api/stats`
reads as `row[10]`). -/
def sheetRow (ts : String) (orderId : String) (d : OrderData) (status : String) :
    List String :=
  [ts, orderId, d.manager, d.customerName, d.customerPhone, d.customerAddress,
   d.customerFlat, d.area, d.cleaningType, d.difficulty, status, d.orderDate,
   d.orderTime, d.orderTotal, d.masterPay, d.pets, d.equipment, d.chemistry,
   d.worksDescription, "", "", "", ""]

/-- Forward movement of the lifecycle: either the status is unchanged or it
advances by exactly one stage of `pending → taken → completed`. -/
def stepOK (s s' : Status) : Prop :=
  s' = s ∨ (s = Status.pending ∧ s' = Status.taken) ∨
    (s = Status.taken ∧ s' = Status.completed)

/-- C6: `extractCityFromAddress` is pure and deterministic (it is a function
of its argument alone), and for every address it returns exactly the first
configured region whose name occurs case-insensitively as a substring of the
address, falling back to the configured default region "Москва" when no
region name matches — the DispatchRouter contract `dispatchRouterSpec`. -/
theorem claim6_dispatch_router_refined (address : String) :
    extractCityFromAddress address = dispatchRouterSpec address := by
  unfold extractCityFromAddress dispatchRouterSpec
  exact findCity_eq_find? address _

/-- C7: in `/api/take-order` the in-memory transition commits before the
ledger call: the post-handler state is identical whether the
`updateGoogleSheet` call throws or succeeds, and when the order exists the
order is `taken` with the claim's fields in place even though the ledger call
failed — the failure is surfaced as a 500 response, never as a rollback. -/
theorem claim7_ledger_failure_never_rolls_back
    (pdt : String → String → Int) (now : Int) (st : ServerState)
    (orderId : String) (masterId : JSId) (masterName : String) :
    (takeOrderApi pdt true now st orderId masterId masterName).state =
      (takeOrderApi pdt false now st orderId masterId masterName).state ∧
    (∀ order, jsMapGet st.orders orderId = some order →
      (takeOrderApi pdt true now st orderId masterId masterName).result =
        ApiResult.serverError ∧
      jsMapGet (takeOrderApi pdt true now st orderId masterId
          masterName).state.orders orderId =
        some { order with
          status := Status.taken
          masterId := some masterId
          masterName := some masterName
          takenAt := some now }) := by
  cases h : jsMapGet st.orders orderId with
  | none =>
    refine ⟨by simp [takeOrderApi, h], ?_⟩
    intro order horder
    exact Option.noConfusion horder
  | some order =>
    refine ⟨by simp [takeOrderApi, h], ?_⟩
    intro o ho
    injection ho with ho'
    subst ho'
    simp [takeOrderApi, h, jsMapGet_jsMapSet_self]

/-- C7 witness: a concrete claim with a failing ledger call still leaves the
order `taken` in memory. -/
theorem claim7_witness :
    jsMapGet (takeOrderApi (fun _ _ => 0) true 9
        { orders := [("CLN-1", { id := "CLN-1", status := Status.pending })],
          masters := [] }
        "CLN-1" (JSId.num 2) "B").state.orders "CLN-1" =
      some { id := "CLN-1", status := Status.taken,
             masterId := some (JSId.num 2), masterName := some "B",
             takenAt := some 9 } := by
  have h := (claim7_ledger_failure_never_rolls_back (fun _ _ => 0) 9
    { orders := [("CLN-1", { id := "CLN-1", status := Status.pending })],
      masters := [] } "CLN-1" (JSId.num 2) "B").2
    { id := "CLN-1", status := Status.pending } rfl
  exact h.2

/-- C8: the photo handler's stage classification is exactly first-match
containment over the fixed marker list in the priority order
`on_site, chemistry, before, after` (`classifySpec`), and a caption matching
no marker makes the handler discard the submission silently: no state change,
no ledger write, no reply. -/
theorem claim8_photo_stage_first_match :
    (∀ caption : String,
      classifySpec caption =
        (if classifyPhotoType caption = "" then none
         else some (classifyPhotoType caption))) ∧
    (∀ (now : Int) (st : ServerState) (fromId : Int) (caption photoUrl : String),
      classifyPhotoType caption = "" →
      photoHandler now st fromId caption photoUrl = ⟨st, [], []⟩) := by
  constructor
  · intro caption
    unfold classifySpec classifyPhotoType stageMarkers
    cases h1 : jsIncludes caption "на месте" <;>
      cases h2 : jsIncludes caption "химия" <;>
        cases h3 : jsIncludes caption "до" <;>
          cases h4 : jsIncludes caption "после" <;>
            simp [List.find?, h1, h2, h3, h4]
  · intro now st fromId caption photoUrl h
    simp [photoHandler, h]

/-- C8 witness: a caption with no marker is discarded silently. -/
theorem claim8_witness :
    photoHandler 0 { orders := [], masters := [] } 7 "привет" "u" =
      ⟨{ orders := [], masters := [] }, [], []⟩ :=
  claim8_photo_stage_first_match.2 0 { orders := [], masters := [] } 7
    "привет" "u" (by decide)

/-- C3 counterexample: `/api/upload-photo` on a *pending* order does not fail
with any invalid-state outcome — it answers success and mutates the order's
photos mapping. -/
theorem claim3_counterexample :
    (uploadPhotoApi 5
        { orders := [("CLN-1", { id := "CLN-1", status := Status.pending })],
          masters := [] } "CLN-1" "before" "u").result = ApiResult.ok ∧
    jsMapGet (uploadPhotoApi 5
        { orders := [("CLN-1", { id := "CLN-1", status := Status.pending })],
          masters := [] } "CLN-1" "before" "u").state.orders "CLN-1" =
      some { id := "CLN-1", status := Status.pending,
             photos := [("before", "u")] } :=
  ⟨rfl, rfl⟩

/-- C3 amended: `/api/upload-photo` performs no lifecycle check at all.  An
unknown order id fails with NotFound and mutates nothing; for *any* existing
order — pending, taken or completed alike — the handler answers success and
upserts `photos[type]`, leaving status and every timestamp unchanged.  There
is no InvalidState outcome in the code. -/
theorem claim3_upload_photo_unchecked_amended
    (now : Int) (st : ServerState) (orderId ty photoUrl : String) :
    (jsMapGet st.orders orderId = none →
      uploadPhotoApi now st orderId ty photoUrl =
        ⟨ApiResult.notFound, st, [], false⟩) ∧
    (∀ order, jsMapGet st.orders orderId = some order →
      (uploadPhotoApi now st orderId ty photoUrl).result = ApiResult.ok ∧
      (uploadPhotoApi now st orderId ty photoUrl).state =
        { st with orders := (jsMapSet st.orders orderId
            { order with photos := jsMapSet order.photos ty photoUrl }) }) := by
  cases h : jsMapGet st.orders orderId with
  | none =>
    refine ⟨fun _ => by simp [uploadPhotoApi, h], ?_⟩
    intro order horder
    exact Option.noConfusion horder
  | some order =>
    refine ⟨fun hn => Option.noConfusion hn, ?_⟩
    intro o ho
    injection ho with ho'
    subst ho'
    exact ⟨by simp [uploadPhotoApi, h], by simp [uploadPhotoApi, h]⟩

/-- C3 witness: a taken order's photo upload succeeds and only the photos
mapping changes. -/
theorem claim3_witness :
    (uploadPhotoApi 5
        { orders := [("CLN-2", { id := "CLN-2", status := Status.taken })],
          masters := [] } "CLN-2" "after" "u").result = ApiResult.ok :=
  ((claim3_upload_photo_unchecked_amended 5
    { orders := [("CLN-2", { id := "CLN-2", status := Status.taken })],
      masters := [] } "CLN-2" "after" "u").2
    { id := "CLN-2", status := Status.taken } rfl).1

/-- C4 counterexample: recording an `after` photo on a *taken* order through
`/api/upload-photo` neither completes the order nor sets `completedAt`: the
status is still `taken` afterwards and `completedAt` is still absent. -/
theorem claim4_counterexample :
    jsMapGet (uploadPhotoApi 5
        { orders := [("CLN-1", { id := "CLN-1", status := Status.taken })],
          masters := [] } "CLN-1" "after" "u").state.orders "CLN-1" =
      some { id := "CLN-1", status := Status.taken,
             photos := [("after", "u")] } ∧
    (uploadPhotoApi 5
        { orders := [("CLN-1", { id := "CLN-1", status := Status.taken })],
          masters := [] } "CLN-1" "after" "u").result = ApiResult.ok :=
  ⟨rfl, rfl⟩

/-- C4 amended: only the Telegram photo handler triggers completion.
`/api/upload-photo` never changes any order's status (and never writes
`completedAt`); the Telegram handler, on finding the submitter's taken order,
does set `status = completed` for an `after` caption — but it too leaves
`completedAt` exactly as it was, i.e. `completedAt` is never set anywhere. -/
theorem claim4_after_photo_completes_amended :
    (∀ (now : Int) (st : ServerState) (orderId ty photoUrl : String) (order : Order),
      jsMapGet st.orders orderId = some order →
      ∃ order',
        jsMapGet (uploadPhotoApi now st orderId ty photoUrl).state.orders orderId
          = some order' ∧
        order'.status = order.status ∧
        order'.completedAt = order.completedAt) ∧
    (∀ (now : Int) (st : ServerState) (fromId : Int)
        (caption photoUrl k : String) (order : Order),
      classifyPhotoType caption = "after" →
      st.orders.find? (fun p =>
          decide (p.2.masterId = some (JSId.num fromId) ∧
                  p.2.status = Status.taken)) = some (k, order) →
      jsMapGet (photoHandler now st fromId caption photoUrl).state.orders k =
        some { order with
          photos := jsMapSet order.photos "after" photoUrl
          status := Status.completed } ∧
      ({ order with
          photos := jsMapSet order.photos "after" photoUrl
          status := Status.completed } : Order).completedAt =
        order.completedAt) := by
  constructor
  · intro now st orderId ty photoUrl order h
    refine ⟨{ order with photos := jsMapSet order.photos ty photoUrl },
      by simp [uploadPhotoApi, h, jsMapGet_jsMapSet_self], rfl, rfl⟩
  · intro now st fromId caption photoUrl k order hc hf
    refine ⟨?_, rfl⟩
    rw [photoHandler, hc]
    simp only [hf]
    simp [hc, jsMapGet_jsMapSet_self]

/-- C4 witness: concrete runs of both photo paths on a taken order. -/
theorem claim4_witness :
    jsMapGet (photoHandler 5
        { orders := [("CLN-3",
            { id := "CLN-3", status := Status.taken,
              masterId := some (JSId.num 7) })], masters := [] }
        7 "фото после" "u").state.orders "CLN-3" =
      some { id := "CLN-3", status := Status.completed,
             masterId := some (JSId.num 7), photos := [("after", "u")] } :=
  (claim4_after_photo_completes_amended.2 5
    { orders := [("CLN-3",
        { id := "CLN-3", status := Status.taken,
          masterId := some (JSId.num 7) })], masters := [] }
    7 "фото после" "u" "CLN-3"
    { id := "CLN-3", status := Status.taken, masterId := some (JSId.num 7) }
    (by decide) (by decide)).1

theorem writeCells_get?_head (row : List String) (n : Nat) (v : String)
    (vs : List String) (h : n < row.length) :
    (writeCells row n (v :: vs)).get? n = some v := by
  induction row generalizing n with
  | nil => cases h
  | cons c rest ih =>
    cases n with
    | zero => rfl
    | succ m =>
      have hm : m < rest.length := Nat.lt_of_succ_lt_succ h
      simpa [writeCells] using ih m hm

theorem updateGoogleSheet_found (pre : List (List String)) (row : List String)
    (post : List (List String)) (orderId : String)
    (updates : List (String × String))
    (hpre : ∀ r ∈ pre, ¬ r.get? 1 = some orderId)
    (hrow : row.get? 1 = some orderId) :
    updateGoogleSheet (pre ++ row :: post) orderId updates =
      pre ++ writeCells row 10 (updates.map Prod.snd) :: post := by
  induction pre with
  | nil =>
    simp only [List.nil_append, updateGoogleSheet]
    rw [if_pos hrow]
  | cons r rest ih =>
    have hr : ¬ r.get? 1 = some orderId := hpre r (List.mem_cons_self r rest)
    have hrest : ∀ x ∈ rest, ¬ x.get? 1 = some orderId :=
      fun x hx => hpre x (List.mem_cons_of_mem r hx)
    simp only [List.cons_append, updateGoogleSheet, List.append_eq]
    rw [if_neg hr, ih hrest]

/-- C9: `updateGoogleSheet` writes `Object.values(updates)` positionally into
columns K.. (0-based index 10 on) of the first row whose B cell equals the
order id, ignoring the key names entirely; column K is the status column (as
`sheetRow`/`saveToGoogleSheets` lays rows out and `/api/stats` reads them
back); and the `/api/upload-photo` ledger payload's first value is the photo
URL — so a photo-recording update lands the photo URL in the status column K,
not in a photo column. -/
theorem claim9_photo_url_lands_in_status_column
    (now : Int) (st : ServerState) (orderId ty url : String) (order : Order)
    (pre post : List (List String)) (row : List String)
    (ts stStr : String) (d : OrderData)
    (h1 : jsMapGet st.orders orderId = some order)
    (hpre : ∀ r ∈ pre, ¬ r.get? 1 = some orderId)
    (hrow : row.get? 1 = some orderId)
    (hlen : 10 < row.length) :
    (uploadPhotoApi now st orderId ty url).ledgerUpdates =
      [("photo_" ++ ty, url), (ty ++ "_at", toString now)] ∧
    updateGoogleSheet (pre ++ row :: post) orderId
        (uploadPhotoApi now st orderId ty url).ledgerUpdates =
      pre ++ writeCells row 10 [url, toString now] :: post ∧
    (writeCells row 10 [url, toString now]).get? 10 = some url ∧
    (sheetRow ts orderId d stStr).get? 10 = some stStr := by
  have hupd : (uploadPhotoApi now st orderId ty url).ledgerUpdates =
      [("photo_" ++ ty, url), (ty ++ "_at", toString now)] := by
    simp [uploadPhotoApi, h1]
  refine ⟨hupd, ?_, writeCells_get?_head row 10 url [toString now] hlen, rfl⟩
  rw [hupd]
  simpa using updateGoogleSheet_found pre row post orderId
    [("photo_" ++ ty, url), (ty ++ "_at", toString now)] hpre hrow

/-- C9 witness: an `after` photo upload against a one-row sheet overwrites the
`pending` status cell (column K) with the photo URL. -/
theorem claim9_witness :
    updateGoogleSheet [sheetRow "t0" "CLN-9" {} "pending"] "CLN-9"
        (uploadPhotoApi 5
          { orders := [("CLN-9", { id := "CLN-9", status := Status.taken })],
            masters := [] } "CLN-9" "after" "u").ledgerUpdates =
      [writeCells (sheetRow "t0" "CLN-9" {} "pending") 10 ["u", toString (5 : Int)]] ∧
    (writeCells (sheetRow "t0" "CLN-9" {} "pending") 10
        ["u", toString (5 : Int)]).get? 10 = some "u" := by
  have h := claim9_photo_url_lands_in_status_column 5
    { orders := [("CLN-9", { id := "CLN-9", status := Status.taken })],
      masters := [] } "CLN-9" "after" "u"
    { id := "CLN-9", status := Status.taken } [] []
    (sheetRow "t0" "CLN-9" {} "pending") "t0" "pending" {}
    rfl (by intro r hr; cases hr) (by decide) (by decide)
  exact ⟨h.2.1, h.2.2.1⟩

/-- C5 counterexample: a worker who registered via `/start` (string key "7")
successfully claims a pending order through the inline action (numeric id 7),
yet zero reminder timers are armed — refuting "exactly two one-shot reminders
are armed for every successfully claimed order". -/
theorem claim5_counterexample :
    (callbackTake (fun _ _ => 0) 9
        { orders := [("CLN-3",
            { id := "CLN-3", status := Status.pending,
              orderDate := "2025-01-01", orderTime := "10:00" })],
          masters := [(JSId.str "7", 100)] } "CLN-3" 7 "W").1 =
      CallbackResult.accepted ∧
    (callbackTake (fun _ _ => 0) 9
        { orders := [("CLN-3",
            { id := "CLN-3", status := Status.pending,
              orderDate := "2025-01-01", orderTime := "10:00" })],
          masters := [(JSId.str "7", 100)] } "CLN-3" 7 "W").2.2 = [] :=
  ⟨rfl, rfl⟩

/-- C5 amended: reminders are armed only when the worker-directory lookup for
the order's stored `masterId` finds a chat id.  In that case exactly two
one-shot timers are armed, with `setTimeout` delays `(T − 24h) − now` and
`(T − 2h) − now` for the parsed schedule `T`, and a delay already in the past
is clamped by Node to 1 ms, i.e. the reminder fires immediately rather than
being dropped.  When the lookup misses, zero timers are armed.  Both the
successful-claim paths arm exactly `scheduleNotifications` of the post-claim
state. -/
theorem claim5_reminders_amended (pdt : String → String → Int) (now : Int)
    (st : ServerState) (orderId : String) :
    (∀ order mid chatId, jsMapGet st.orders orderId = some order →
      order.masterId = some mid → jsMapGet st.masters mid = some chatId →
      scheduleNotifications pdt now st orderId =
        [⟨chatId, pdt order.orderDate order.orderTime - 24 * 60 * 60 * 1000 - now,
           ReminderKind.h24⟩,
         ⟨chatId, pdt order.orderDate order.orderTime - 2 * 60 * 60 * 1000 - now,
           ReminderKind.h2⟩]) ∧
    (∀ order, jsMapGet st.orders orderId = some order →
      order.masterId.bind (fun mid => jsMapGet st.masters mid) = none →
      scheduleNotifications pdt now st orderId = []) ∧
    (∀ d : Int, d ≤ 0 → effectiveDelay d = 1) ∧
    (∀ masterId mName,
      (takeOrderApi pdt false now st orderId masterId mName).timers =
        scheduleNotifications pdt now
          (takeOrderApi pdt false now st orderId masterId mName).state orderId) := by
  refine ⟨?_, ?_, ?_, ?_⟩
  · intro order mid chatId hget hmid hchat
    simp [scheduleNotifications, hget, hmid, hchat]
  · intro order hget hbind
    simp [scheduleNotifications, hget, hbind]
  · intro d hd
    have h1 : d < 1 := by omega
    simp [effectiveDelay, h1]
  · intro masterId mName
    cases h : jsMapGet st.orders orderId with
    | none => simp [takeOrderApi, h, scheduleNotifications]
    | some order => simp [takeOrderApi, h]

/-- C5 witness: with a numeric-keyed directory entry in place, a claim's
scheduler arms exactly the 24h and 2h timers; a past 24h delay is clamped to
an immediate fire. -/
theorem claim5_witness :
    scheduleNotifications (fun _ _ => 1000000000) 999999999
        { orders := [("CLN-4",
            { id := "CLN-4", status := Status.taken,
              masterId := some (JSId.num 7),
              orderDate := "d", orderTime := "t" })],
          masters := [(JSId.num 7, 100)] } "CLN-4" =
      [⟨100, 1000000000 - 24 * 60 * 60 * 1000 - 999999999, ReminderKind.h24⟩,
       ⟨100, 1000000000 - 2 * 60 * 60 * 1000 - 999999999, ReminderKind.h2⟩] ∧
    effectiveDelay (1000000000 - 24 * 60 * 60 * 1000 - 999999999) = 1 := by
  have h := claim5_reminders_amended (fun _ _ => 1000000000) 999999999
    { orders := [("CLN-4",
        { id := "CLN-4", status := Status.taken,
          masterId := some (JSId.num 7),
          orderDate := "d", orderTime := "t" })],
      masters := [(JSId.num 7, 100)] } "CLN-4"
  have hA := h.1
    { id := "CLN-4", status := Status.taken,
      masterId := some (JSId.num 7), orderDate := "d", orderTime := "t" }
    (JSId.num 7) 100 rfl rfl rfl
  exact ⟨hA, h.2.2.1 _ (by decide)⟩

theorem jsMapGet_num_of_all_str (m : List (JSId × Int)) (n : Int)
    (h : ∀ p ∈ m, ∃ s, p.1 = JSId.str s) :
    jsMapGet m (JSId.num n) = none := by
  induction m with
  | nil => rfl
  | cons hd tl ih =>
    obtain ⟨k, v⟩ := hd
    obtain ⟨s, hs⟩ := h (k, v) (List.mem_cons_self _ _)
    simp only at hs
    subst hs
    have hne : JSId.str s ≠ JSId.num n := fun hc => JSId.noConfusion hc
    simp [jsMapGet, hne, ih fun p hp => h p (List.mem_cons_of_mem _ hp)]

theorem mem_jsMapSet {α β : Type} [DecidableEq α] (m : List (α × β))
    (k : α) (v : β) (p : α × β) (hp : p ∈ jsMapSet m k v) :
    p ∈ m ∨ p = (k, v) := by
  induction m with
  | nil => simpa [jsMapSet] using hp
  | cons hd tl ih =>
    obtain ⟨k0, v0⟩ := hd
    by_cases h : k0 = k
    · subst h
      simp only [jsMapSet, if_pos rfl] at hp
      rcases List.mem_cons.mp hp with heq | htl
      · exact Or.inr heq
      · exact Or.inl (List.mem_cons_of_mem _ htl)
    · simp only [jsMapSet, if_neg h] at hp
      rcases List.mem_cons.mp hp with heq | htl
      · exact Or.inl (heq ▸ List.mem_cons_self _ _)
      · rcases ih htl with hm | he
        · exact Or.inl (List.mem_cons_of_mem _ hm)
        · exact Or.inr he

/-- C10: registration keys the directory by the *string* form of the Telegram
user id, while an inline-action claim stores the *numeric* id on the order; a
JS `Map` never equates the two, so for an order claimed through the inline
action by a `/start`-registered worker the directory lookup inside
`scheduleNotifications` misses and zero reminder timers are armed — even
though the claim itself succeeds. -/
theorem claim10_worker_key_mismatch (pdt : String → String → Int) (now : Int)
    (st : ServerState) (uid chatId : Int) (orderId fromName : String)
    (order : Order)
    (hstr : ∀ p ∈ st.masters, ∃ s, p.1 = JSId.str s)
    (hget : jsMapGet st.orders orderId = some order)
    (hpending : order.status = Status.pending) :
    (callbackTake pdt now (registerStart st uid chatId) orderId uid fromName).1 =
      CallbackResult.accepted ∧
    (callbackTake pdt now (registerStart st uid chatId) orderId uid fromName).2.2 =
      [] := by
  have hstr1 : ∀ p ∈ (registerStart st uid chatId).masters, ∃ s, p.1 = JSId.str s := by
    intro p hp
    rcases mem_jsMapSet st.masters (JSId.str (toString uid)) chatId p hp with hm | he
    · exact hstr p hm
    · exact ⟨toString uid, by rw [he]⟩
  have hget1 : jsMapGet (registerStart st uid chatId).orders orderId = some order :=
    hget
  have hmiss : jsMapGet (registerStart st uid chatId).masters (JSId.num uid) = none :=
    jsMapGet_num_of_all_str _ uid hstr1
  constructor
  · simp [callbackTake, hget1, hpending]
  · simp [callbackTake, hget1, hpending, scheduleNotifications,
      jsMapGet_jsMapSet_self, hmiss]

/-- C10 witness: worker 7 registers, claims a pending order via the inline
button, and no reminder timers are armed. -/
theorem claim10_witness :
    (callbackTake (fun _ _ => 0) 9
        (registerStart
          { orders := [("CLN-5", { id := "CLN-5", status := Status.pending })],
            masters := [] } 7 100) "CLN-5" 7 "W").1 = CallbackResult.accepted ∧
    (callbackTake (fun _ _ => 0) 9
        (registerStart
          { orders := [("CLN-5", { id := "CLN-5", status := Status.pending })],
            masters := [] } 7 100) "CLN-5" 7 "W").2.2 = [] :=
  claim10_worker_key_mismatch (fun _ _ => 0) 9
    { orders := [("CLN-5", { id := "CLN-5", status := Status.pending })],
      masters := [] } 7 100 "CLN-5" "W"
    { id := "CLN-5", status := Status.pending }
    (by intro p hp; cases hp) rfl rfl

/-- On an order that exists but is no longer pending, every inline claim tap
answers "already taken" and leaves the state untouched. -/
theorem runCallbackClaims_stuck (pdt : String → String → Int) (now : Int)
    (st : ServerState) (orderId : String) (attempts : List (Int × String))
    (order : Order) (hget : jsMapGet st.orders orderId = some order)
    (hns : order.status ≠ Status.pending) :
    runCallbackClaims pdt now st orderId attempts =
      (attempts.map (fun _ => CallbackResult.alreadyTaken), st) := by
  induction attempts with
  | nil => rfl
  | cons a rest ih =>
    obtain ⟨i, n⟩ := a
    have hcb : callbackTake pdt now st orderId i n =
        (CallbackResult.alreadyTaken, st, []) := by
      simp [callbackTake, hget, hns]
    simp [runCallbackClaims, hcb, ih]

/-- C1 counterexample: `/api/take-order` against an order that is already
`taken` by worker 1 does not return a Conflict outcome and does not leave the
order unchanged — it answers success and hands the order to worker 2. -/
theorem claim1_counterexample :
    (takeOrderApi (fun _ _ => 0) false 9
        { orders := [("CLN-1",
            { id := "CLN-1", status := Status.taken,
              masterId := some (JSId.num 1), masterName := some "A",
              takenAt := some 5 })], masters := [] }
        "CLN-1" (JSId.num 2) "B").result = ApiResult.ok ∧
    jsMapGet (takeOrderApi (fun _ _ => 0) false 9
        { orders := [("CLN-1",
            { id := "CLN-1", status := Status.taken,
              masterId := some (JSId.num 1), masterName := some "A",
              takenAt := some 5 })], masters := [] }
        "CLN-1" (JSId.num 2) "B").state.orders "CLN-1" =
      some { id := "CLN-1", status := Status.taken,
             masterId := some (JSId.num 2), masterName := some "B",
             takenAt := some 9 } :=
  ⟨rfl, rfl⟩

/-- C1 amended: only the Telegram inline claim path checks the status.  Via
the inline action, a claim commits iff the order exists and is `pending`; any
other attempt gets the "already taken" Conflict answer and changes nothing,
so of N sequential inline claim attempts on a pending order exactly the first
succeeds and the other N−1 get Conflict.  The `/api/take-order` endpoint,
in contrast, performs no status check: for any existing order it answers
success and reassigns it (only an unknown id fails, with NotFound). -/
theorem claim1_claim_race_amended (pdt : String → String → Int) (now : Int)
    (st : ServerState) (orderId : String) (fromId : Int) (fromName : String)
    (masterId : JSId) (mName : String) (lf : Bool) :
    (∀ order, jsMapGet st.orders orderId = some order →
      order.status = Status.pending →
      (callbackTake pdt now st orderId fromId fromName).1 =
        CallbackResult.accepted ∧
      jsMapGet (callbackTake pdt now st orderId fromId fromName).2.1.orders
          orderId =
        some { order with
          status := Status.taken
          masterId := some (JSId.num fromId)
          masterName := some fromName
          takenAt := some now }) ∧
    (∀ order, jsMapGet st.orders orderId = some order →
      order.status ≠ Status.pending →
      callbackTake pdt now st orderId fromId fromName =
        (CallbackResult.alreadyTaken, st, [])) ∧
    (jsMapGet st.orders orderId = none →
      callbackTake pdt now st orderId fromId fromName =
        (CallbackResult.alreadyTaken, st, [])) ∧
    (∀ order, jsMapGet st.orders orderId = some order →
      (takeOrderApi pdt lf now st orderId masterId mName).result ≠
        ApiResult.notFound ∧
      jsMapGet (takeOrderApi pdt lf now st orderId masterId
          mName).state.orders orderId =
        some { order with
          status := Status.taken
          masterId := some masterId
          masterName := some mName
          takenAt := some now }) ∧
    (∀ order a rest, jsMapGet st.orders orderId = some order →
      order.status = Status.pending →
      (runCallbackClaims pdt now st orderId (a :: rest)).1 =
        CallbackResult.accepted ::
          rest.map (fun _ => CallbackResult.alreadyTaken)) := by
  refine ⟨?_, ?_, ?_, ?_, ?_⟩
  · intro order hget hp
    constructor
    · simp [callbackTake, hget, hp]
    · simp [callbackTake, hget, hp, jsMapGet_jsMapSet_self]
  · intro order hget hns
    simp [callbackTake, hget, hns]
  · intro hget
    simp [callbackTake, hget]
  · intro order hget
    cases lf with
    | true =>
      exact ⟨by simp [takeOrderApi, hget],
        by simp [takeOrderApi, hget, jsMapGet_jsMapSet_self]⟩
    | false =>
      exact ⟨by simp [takeOrderApi, hget],
        by simp [takeOrderApi, hget, jsMapGet_jsMapSet_self]⟩
  · intro order a rest hget hp
    obtain ⟨i, n⟩ := a
    have hcb : callbackTake pdt now st orderId i n =
        (CallbackResult.accepted,
          { st with orders := (jsMapSet st.orders orderId
            { order with
              status := Status.taken
              masterId := some (JSId.num i)
              masterName := some n
              takenAt := some now }) },
          scheduleNotifications pdt now
            { st with orders := (jsMapSet st.orders orderId
              { order with
                status := Status.taken
                masterId := some (JSId.num i)
                masterName := some n
                takenAt := some now }) } orderId) := by
      simp [callbackTake, hget, hp]
    have hstuck := runCallbackClaims_stuck pdt now
      { st with orders := (jsMapSet st.orders orderId
        { order with
          status := Status.taken
          masterId := some (JSId.num i)
          masterName := some n
          takenAt := some now }) } orderId rest
      { order with
        status := Status.taken
        masterId := some (JSId.num i)
        masterName := some n
        takenAt := some now }
      (jsMapGet_jsMapSet_self _ _ _) (by simp)
    simp [runCallbackClaims, hcb, hstuck]

/-- C1 witness: three sequential inline taps on a pending order — the first
worker wins, the other two get Conflict. -/
theorem claim1_witness :
    (runCallbackClaims (fun _ _ => 0) 9
        { orders := [("CLN-6", { id := "CLN-6", status := Status.pending })],
          masters := [] } "CLN-6"
        [(1, "a"), (2, "b"), (3, "c")]).1 =
      [CallbackResult.accepted, CallbackResult.alreadyTaken,
       CallbackResult.alreadyTaken] := by
  have h := (claim1_claim_race_amended (fun _ _ => 0) 9
    { orders := [("CLN-6", { id := "CLN-6", status := Status.pending })],
      masters := [] } "CLN-6" 1 "a" (JSId.num 1) "a" false).2.2.2.2
    { id := "CLN-6", status := Status.pending }
    (1, "a") [(2, "b"), (3, "c")] rfl rfl
  simpa using h

/-- Reading key `k'` after writing key `k`: either the keys coincide and the
written value is read back, or they differ and the read is unchanged. -/
theorem jsMapGet_jsMapSet_cases {α β : Type} [DecidableEq α]
    (m : List (α × β)) (k k' : α) (v w : β)
    (h : jsMapGet (jsMapSet m k v) k' = some w) :
    (k = k' ∧ w = v) ∨ (k ≠ k' ∧ jsMapGet m k' = some w) := by
  by_cases hk : k = k'
  · subst hk
    rw [jsMapGet_jsMapSet_self] at h
    exact Or.inl ⟨rfl, (Option.some.inj h).symm⟩
  · rw [jsMapGet_jsMapSet_ne _ _ _ _ hk] at h
    exact Or.inr ⟨hk, h⟩

/-- C2 counterexample: a `completed` order fed to `/api/take-order` comes out
`taken` — the status moves backwards along the lifecycle. -/
theorem claim2_counterexample :
    ({ id := "CLN-2", status := Status.completed } : Order).status =
      Status.completed ∧
    jsMapGet (takeOrderApi (fun _ _ => 0) false 9
        { orders := [("CLN-2", { id := "CLN-2", status := Status.completed })],
          masters := [] } "CLN-2" (JSId.num 2) "B").state.orders "CLN-2" =
      some { id := "CLN-2", status := Status.taken,
             masterId := some (JSId.num 2), masterName := some "B",
             takenAt := some 9 } :=
  ⟨rfl, rfl⟩

/-- C2 amended: the status only moves forward — never skipping a stage and
never reversing — under order creation (fresh id), the Telegram inline claim
path, and both photo-recording paths; `/api/upload-photo` in fact never
changes any status at all.  The exception the code forces: `/api/take-order`
sets the target order's status to `taken` whatever its current status, so it
can move a `taken` or `completed` order back to `taken`. -/
theorem claim2_status_forward_amended (pdt : String → String → Int) (now : Int)
    (st : ServerState) (orderId : String) (fromId : Int) (fromName : String)
    (caption photoUrl ty url : String) (d : OrderData) (masterId : JSId)
    (mName : String) (lf : Bool) :
    (∀ k o o', jsMapGet st.orders k = some o →
      jsMapGet (callbackTake pdt now st orderId fromId fromName).2.1.orders k =
        some o' →
      stepOK o.status o'.status) ∧
    (∀ k o o', (st.orders.map Prod.fst).Nodup →
      jsMapGet st.orders k = some o →
      jsMapGet (photoHandler now st fromId caption photoUrl).state.orders k =
        some o' →
      stepOK o.status o'.status) ∧
    (∀ k o o', jsMapGet st.orders k = some o →
      jsMapGet (uploadPhotoApi now st orderId ty url).state.orders k =
        some o' →
      o'.status = o.status) ∧
    (jsMapGet st.orders orderId = none →
      (∀ k, k ≠ orderId →
        jsMapGet (createOrder st orderId d now).orders k =
          jsMapGet st.orders k) ∧
      ∃ o', jsMapGet (createOrder st orderId d now).orders orderId = some o' ∧
        o'.status = Status.pending) ∧
    (∀ o, jsMapGet st.orders orderId = some o →
      ∃ o', jsMapGet (takeOrderApi pdt lf now st orderId masterId
          mName).state.orders orderId = some o' ∧
        o'.status = Status.taken) := by
  refine ⟨?_, ?_, ?_, ?_, ?_⟩
  · intro k o o' hk hk'
    cases hg : jsMapGet st.orders orderId with
    | none =>
      have hcb : (callbackTake pdt now st orderId fromId fromName).2.1 = st := by
        simp [callbackTake, hg]
      rw [hcb, hk] at hk'
      exact Or.inl (by rw [← Option.some.inj hk'])
    | some order =>
      by_cases hp : order.status = Status.pending
      · have hcb : (callbackTake pdt now st orderId fromId fromName).2.1 =
            { st with orders := (jsMapSet st.orders orderId
              { order with
                status := Status.taken
                masterId := some (JSId.num fromId)
                masterName := some fromName
                takenAt := some now }) } := by
          simp [callbackTake, hg, hp]
        rw [hcb] at hk'
        rcases jsMapGet_jsMapSet_cases _ _ _ _ _ hk' with ⟨hkk, hw⟩ | ⟨_, hrest⟩
        · subst hkk
          have ho : o = order := by
            rw [hk] at hg
            exact Option.some.inj hg
          exact Or.inr (Or.inl ⟨ho ▸ hp, by rw [hw]⟩)
        · rw [hk] at hrest
          exact Or.inl (by rw [← Option.some.inj hrest])
      · have hcb : (callbackTake pdt now st orderId fromId fromName).2.1 = st := by
          simp [callbackTake, hg, hp]
        rw [hcb, hk] at hk'
        exact Or.inl (by rw [← Option.some.inj hk'])
  · intro k o o' hnd hk hk'
    by_cases hty : classifyPhotoType caption = ""
    · have hph : (photoHandler now st fromId caption photoUrl).state = st := by
        simp [photoHandler, hty]
      rw [hph, hk] at hk'
      exact Or.inl (by rw [← Option.some.inj hk'])
    · cases hf : st.orders.find? (fun p =>
          decide (p.2.masterId = some (JSId.num fromId) ∧
                  p.2.status = Status.taken)) with
      | none =>
        have hph : (photoHandler now st fromId caption photoUrl).state = st := by
          rw [photoHandler]
          simp only [hf]
          simp [hty]
        rw [hph, hk] at hk'
        exact Or.inl (by rw [← Option.some.inj hk'])
      | some p =>
        obtain ⟨k0, o0⟩ := p
        have hmem : (k0, o0) ∈ st.orders := List.mem_of_find?_eq_some hf
        have hpred := List.find?_some hf
        rw [decide_eq_true_eq] at hpred
        have hg0 : jsMapGet st.orders k0 = some o0 :=
          jsMapGet_of_mem_nodup _ _ _ hmem hnd
        by_cases hafter : classifyPhotoType caption = "after"
        · have hph : (photoHandler now st fromId caption photoUrl).state =
              { st with orders := (jsMapSet
                (jsMapSet st.orders k0
                  { o0 with photos := jsMapSet o0.photos "after" photoUrl }) k0
                { o0 with
                  photos := jsMapSet o0.photos "after" photoUrl
                  status := Status.completed }) } := by
            rw [photoHandler, hafter]
            simp only [hf]
            simp [hafter]
          rw [hph] at hk'
          rcases jsMapGet_jsMapSet_cases _ _ _ _ _ hk' with ⟨hkk, hw⟩ | ⟨hkk, hrest⟩
          · subst hkk
            have ho : o = o0 := by
              rw [hk] at hg0
              exact Option.some.inj hg0
            exact Or.inr (Or.inr ⟨ho ▸ hpred.2, by rw [hw]⟩)
          · rcases jsMapGet_jsMapSet_cases _ _ _ _ _ hrest with ⟨hkk2, _⟩ | ⟨_, hrest2⟩
            · exact absurd hkk2 hkk
            · rw [hk] at hrest2
              exact Or.inl (by rw [← Option.some.inj hrest2])
        · have hph : (photoHandler now st fromId caption photoUrl).state =
              { st with orders := (jsMapSet st.orders k0
                { o0 with photos :=
                    jsMapSet o0.photos (classifyPhotoType caption) photoUrl }) } := by
            rw [photoHandler]
            simp only [hf]
            simp [hty, hafter]
          rw [hph] at hk'
          rcases jsMapGet_jsMapSet_cases _ _ _ _ _ hk' with ⟨hkk, hw⟩ | ⟨_, hrest⟩
          · subst hkk
            have ho : o = o0 := by
              rw [hk] at hg0
              exact Option.some.inj hg0
            refine Or.inl ?_
            rw [hw, ho]
          · rw [hk] at hrest
            exact Or.inl (by rw [← Option.some.inj hrest])
  · intro k o o' hk hk'
    cases hg : jsMapGet st.orders orderId with
    | none =>
      have hup : (uploadPhotoApi now st orderId ty url).state = st := by
        simp [uploadPhotoApi, hg]
      rw [hup, hk] at hk'
      rw [← Option.some.inj hk']
    | some order =>
      have hup : (uploadPhotoApi now st orderId ty url).state =
          { st with orders := (jsMapSet st.orders orderId
            { order with photos := jsMapSet order.photos ty url }) } := by
        simp [uploadPhotoApi, hg]
      rw [hup] at hk'
      rcases jsMapGet_jsMapSet_cases _ _ _ _ _ hk' with ⟨hkk, hw⟩ | ⟨_, hrest⟩
      · subst hkk
        have ho : o = order := by
          rw [hk] at hg
          exact Option.some.inj hg
        rw [hw, ho]
      · rw [hk] at hrest
        rw [← Option.some.inj hrest]
  · intro hfresh
    refine ⟨?_, ?_⟩
    · intro k hkne
      exact jsMapGet_jsMapSet_ne _ _ _ _ (fun h => hkne h.symm)
    · exact ⟨_, jsMapGet_jsMapSet_self _ _ _, rfl⟩
  · intro o hget
    cases lf with
    | true =>
      refine ⟨{ o with
        status := Status.taken
        masterId := some masterId
        masterName := some mName
        takenAt := some now }, ?_, rfl⟩
      simp [takeOrderApi, hget, jsMapGet_jsMapSet_self]
    | false =>
      refine ⟨{ o with
        status := Status.taken
        masterId := some masterId
        masterName := some mName
        takenAt := some now }, ?_, rfl⟩
      simp [takeOrderApi, hget, jsMapGet_jsMapSet_self]

/-- C2 witness: a concrete inline claim takes a pending order forward one
stage, and a concrete `after` photo takes a taken order forward one stage. -/
theorem claim2_witness :
    stepOK Status.pending Status.taken ∧ stepOK Status.taken Status.completed := by
  constructor
  · exact (claim2_status_forward_amended (fun _ _ => 0) 9
      { orders := [("CLN-7", { id := "CLN-7", status := Status.pending })],
        masters := [] } "CLN-7" 1 "w" "c" "u" "t" "u2" {} (JSId.num 1) "w"
      false).1 "CLN-7" { id := "CLN-7", status := Status.pending }
      { id := "CLN-7", status := Status.taken,
        masterId := some (JSId.num 1), masterName := some "w",
        takenAt := some 9 } rfl rfl
  · exact (claim2_status_forward_amended (fun _ _ => 0) 9
      { orders := [("CLN-8",
          { id := "CLN-8", status := Status.taken,
            masterId := some (JSId.num 1) })],
        masters := [] } "CLN-8" 1 "w" "после" "u" "t" "u2" {} (JSId.num 1) "w"
      false).2.1 "CLN-8"
      { id := "CLN-8", status := Status.taken, masterId := some (JSId.num 1) }
      { id := "CLN-8", status := Status.completed,
        masterId := some (JSId.num 1), photos := [("after", "u")] }
      (by decide) rfl (by decide)

end Prace
